import Mathlib

/-!
Verification of the typstudio incremental compilation core.

This file shallowly embeds the Rust source under `src/src-tauri/src/`:
the compile request-id admission logic of `ipc/commands/typst.rs`
(`typst_compile`), the cancellation guard of `compiler/cancellation.rs`
(`CancellableWorld`), the page render cache of
`compiler/incr_renderer.rs` (`IncrementalRenderer`), the source overlay
of `project/world.rs` (`ProjectWorld` / `PathSlot`), the success/failure
event construction of `typst.rs` / `compiler/service.rs`, and the lock
acquisition discipline of both compile paths.

External collaborators (the typst compiler, SipHasher, `typst_svg::svg`,
disk I/O, virtual-path resolution) are modelled as parameters: each
embedded function takes them as explicit function arguments, and the
theorems quantify over them.  Machine integers (`u64`, `u128`, `usize`)
are modelled as `Nat`; the one place the code masks to 64 bits
(`hash & 0xFFFFFFFFFFFFFFFF` in `generate_data_tid`) is modelled with an
explicit `% 2 ^ 64`.
-/

namespace Typstudio

/-- Generic association-list lookup, the embedding of `HashMap::get`:
the first binding of the key wins (keys are unique in every map the code
builds). -/
def alistLookup {κ α : Type} [DecidableEq κ] : List (κ × α) → κ → Option α
  | [], _ => none
  | (k, v) :: t, k' => if k = k' then some v else alistLookup t k'

/-- Generic association-list insert/replace, the embedding of
`HashMap::insert`: replaces the first binding of the key, or appends a
new binding. -/
def alistInsert {κ α : Type} [DecidableEq κ] : List (κ × α) → κ → α → List (κ × α)
  | [], k', v' => [(k', v')]
  | (k, v) :: t, k', v' =>
    if k = k' then (k', v') :: t else (k, v) :: alistInsert t k' v'

/-- Generic in-place update of the first binding of a key (the embedding
of mutating a `HashMap` entry through a borrowed reference). -/
def alistUpdate {κ α : Type} [DecidableEq κ] : List (κ × α) → κ → (α → α) → List (κ × α)
  | [], _, _ => []
  | (k, v) :: t, k', f =>
    if k = k' then (k, f v) :: t else (k, v) :: alistUpdate t k' f

/-- The resolution-layer error type, from `typst::diag::FileError` as the
code uses it: `AccessDenied` (`world.rs`), an I/O error tagged with the
originating path (`FileError::from_io`), `PackageError::NotFound`, and
the synthetic `FileError::Other(Some("compilation cancelled"))` raised by
`cancellation.rs`. -/
inductive FileErrorM
  | accessDenied
  | ioError (path : String)
  | packageNotFound
  | cancelled
deriving DecidableEq

/-! ## Request-id admission (`ipc/commands/typst.rs`, `typst_compile`) -/

/-- Embedding of `typst.rs:88`:
`project.current_compile_request_id.store(request_id, Ordering::SeqCst)`.
The atomic counter is unconditionally overwritten with the incoming
request id (this is a plain `store`, not a `fetch_max`). -/
def storeRequestId (counter request_id : Nat) : Nat := request_id

/-- Embedding of the admission gate at `typst.rs:95-100` and
`typst.rs:124-129` / `168-173`: the result is admitted (not discarded)
iff the loaded counter equals this job's request id
(`if current_request != request_id { return }`). -/
def admitResult (counter request_id : Nat) : Bool := counter == request_id

/-- One observable action of a `typst_compile` invocation on the shared
`current_compile_request_id` atomic: the initial `store` of the
request's id (`typst.rs:88`), or the final post-compile `load`-and-compare
gate (`typst.rs:124` / `typst.rs:168`) that decides whether the finished
result is published. -/
inductive ReqEvent
  | store (id : Nat)
  | check (id : Nat)
deriving DecidableEq

/-- The ids written to the shared counter over a trace, in trace order. -/
def storesOf : List ReqEvent → List Nat
  | [] => []
  | ReqEvent.store i :: tr => i :: storesOf tr
  | ReqEvent.check _ :: tr => storesOf tr

/-- The value of `current_compile_request_id` after a trace of events,
starting from `c`: each `store` overwrites it via `storeRequestId`, a
`check` only reads it. -/
def counterAfter (c : Nat) : List ReqEvent → Nat
  | [] => c
  | ReqEvent.store i :: tr => counterAfter (storeRequestId c i) tr
  | ReqEvent.check _ :: tr => counterAfter c tr

/-! ## Cancellation guard (`compiler/cancellation.rs`) -/

/-- Embedding of `CancellableWorld::check_cancellation`
(`cancellation.rs:23-28`): if the shared token is flagged, return the
synthetic "compilation cancelled" file error. -/
def check_cancellation (token : Bool) : Except FileErrorM Unit :=
  if token then Except.error FileErrorM.cancelled else Except.ok ()

/-- Embedding of `World::source` for `CancellableWorld`
(`cancellation.rs:44-46`).  The body is `self.world.source(id)`: it
delegates directly to the wrapped overlay and never consults the token
(`check_cancellation` is not called there). -/
def cancellableWorldSource (token : Bool) (underlying : Nat → Except FileErrorM String)
    (id : Nat) : Except FileErrorM String :=
  underlying id

/-- Embedding of `World::file` for `CancellableWorld`
(`cancellation.rs:48-50`); like `source`, the body delegates directly
without consulting the token. -/
def cancellableWorldFile (token : Bool) (underlying : Nat → Except FileErrorM (List UInt8))
    (id : Nat) : Except FileErrorM (List UInt8) :=
  underlying id

/-! ## Lock acquisition discipline -/

/-- Health of a shared lock: `poisoned` after a holder panicked. -/
inductive LockHealth
  | healthy
  | poisoned
deriving DecidableEq

/-- Embedding of `Mutex::lock` / `RwLock::read` / `RwLock::write`: the
acquisition returns `Ok(guard)` on a healthy lock and a `PoisonError`
carrying the guard on a poisoned one. -/
def mutexLockResult (s : LockHealth) (guard : Nat) : Except Nat Nat :=
  match s with
  | LockHealth.healthy => Except.ok guard
  | LockHealth.poisoned => Except.error guard

/-- Embedding of `.unwrap()` on a lock result: yields the guard on a
healthy lock, and panics (`none`) on a poisoned one. -/
def lockUnwrap (r : Except Nat Nat) : Option Nat :=
  match r with
  | Except.ok v => some v
  | Except.error _ => none

/-- Embedding of `.unwrap_or_else(|e| e.into_inner())` on a lock result:
adopts the poisoned state by taking the guard out of the `PoisonError`. -/
def lockRecover (r : Except Nat Nat) : Nat :=
  match r with
  | Except.ok v => v
  | Except.error v => v

/-- The world-lock acquisition of the `typst_compile` command
(`typst.rs:91`): `project.world.lock().unwrap()`. -/
def typstCompileWorldLock (s : LockHealth) (g : Nat) : Option Nat :=
  lockUnwrap (mutexLockResult s g)

/-- The world-lock acquisition of the compile worker
(`service.rs:106-109` and `service.rs:181-184`):
`lock().unwrap_or_else(|e| e.into_inner())`, recovering from poison. -/
def compileJobWorldLock (s : LockHealth) (g : Nat) : Nat :=
  lockRecover (mutexLockResult s g)

/-- A slot's source/byte lock acquisition (`world.rs`, `PathSlot::source`
/ `PathSlot::file` / `slot_update`): every one is `.read().unwrap()` or
`.write().unwrap()`. -/
def slotLockAcquire (s : LockHealth) (g : Nat) : Option Nat :=
  lockUnwrap (mutexLockResult s g)

/-- The document-cache lock acquisition (`typst.rs:151`, `typst.rs:234`,
`service.rs:161`): `project.cache.write().unwrap()` /
`project.cache.read().unwrap()`. -/
def documentCacheLockAcquire (s : LockHealth) (g : Nat) : Option Nat :=
  lockUnwrap (mutexLockResult s g)

/-! ## Page render cache (`compiler/incr_renderer.rs`)

Pages are abstracted as `Nat`; the structural SipHash of a page's frame
(`compute_page_hash`) and the external renderer `typst_svg::svg` are
parameters `pageHash : Nat → Nat` and `svgOf : Nat → String`. -/

/-- Structure `PageRenderCache` from `incr_renderer.rs:7-12`. -/
structure PageRenderCacheM where
  frame_hash : Nat
  svg : String
  data_tid : String
deriving DecidableEq

/-- Formatting `{:016x}`: lowercase hex, zero-padded to 16 digits. -/
def hexPad16 (n : Nat) : String :=
  String.mk (List.replicate (16 - (Nat.toDigits 16 n).length) '0' ++ Nat.toDigits 16 n)

/-- Embedding of `IncrementalRenderer::generate_data_tid`
(`incr_renderer.rs:44-46`): `format!("p{}-{:016x}", page_index, hash & 0xFFFFFFFFFFFFFFFF)`. -/
def generate_data_tid (hash : Nat) (page_index : Nat) : String :=
  "p" ++ toString page_index ++ "-" ++ hexPad16 (hash % 2 ^ 64)

/-- Embedding of `str::find(pattern)`: index of the first occurrence of `pat` in
`hay`, if any. -/
def findSub (hay pat : List Char) : Option Nat :=
  match hay with
  | [] => if pat.isEmpty then some 0 else none
  | _ :: t => if pat.isPrefixOf hay then some 0 else (findSub t pat).map (· + 1)

/-- Worker for `add_data_tid_to_svg`, over character lists.  Mirrors
`incr_renderer.rs:48-57`: find `"<svg"`, find the following `'>'`, and
splice ` data-tid="…"` in just before it; if either search fails the
input is returned unchanged. -/
def addTidAux (svg data_tid : List Char) : List Char :=
  match findSub svg "<svg".data with
  | none => svg
  | some pos =>
    match List.findIdx? (fun c => c == '>') (svg.drop pos) with
    | none => svg
    | some end_pos =>
      svg.take (pos + end_pos) ++ (" data-tid=\"".data ++ data_tid ++ "\"".data)
        ++ svg.drop (pos + end_pos)

/-- Embedding of `IncrementalRenderer::add_data_tid_to_svg`. -/
def add_data_tid_to_svg (svg : String) (data_tid : String) : String :=
  String.mk (addTidAux svg.data data_tid.data)

/-- Embedding of `IncrementalRenderer::render_page`
(`incr_renderer.rs:59-79`).  Returns the pair the Rust function returns
(markup, freshly-rendered flag) together with the updated cache (the
mutation of `self.page_cache`).  The flag is `false` on a fingerprint
cache hit and `true` when a fresh render was produced and stored. -/
def render_page (pageHash : Nat → Nat) (svgOf : Nat → String)
    (cache : List (Nat × PageRenderCacheM)) (page_index page : Nat) :
    (String × Bool) × List (Nat × PageRenderCacheM) :=
  let frame_hash := pageHash page
  match alistLookup cache page_index with
  | some cached =>
    if cached.frame_hash = frame_hash then
      ((cached.svg, false), cache)
    else
      let svg_with_tid := add_data_tid_to_svg (svgOf page) (generate_data_tid frame_hash page_index)
      ((svg_with_tid, true),
        alistInsert cache page_index
          { frame_hash := frame_hash, svg := svg_with_tid
            data_tid := generate_data_tid frame_hash page_index })
  | none =>
    let svg_with_tid := add_data_tid_to_svg (svgOf page) (generate_data_tid frame_hash page_index)
    ((svg_with_tid, true),
      alistInsert cache page_index
        { frame_hash := frame_hash, svg := svg_with_tid
          data_tid := generate_data_tid frame_hash page_index })

/-- The enumeration loop of `get_changed_pages`
(`incr_renderer.rs:84-91`): starting at absolute index `i`, push the
index of every page whose fingerprint is absent from the cache or
differs from the cached one. -/
def changedIdx (pageHash : Nat → Nat) (cache : List (Nat × PageRenderCacheM)) :
    Nat → List Nat → List Nat
  | _, [] => []
  | i, p :: ps =>
    (match alistLookup cache i with
      | some cached => if cached.frame_hash = pageHash p then [] else [i]
      | none => [i]) ++ changedIdx pageHash cache (i + 1) ps

/-- Embedding of `IncrementalRenderer::get_changed_pages`
(`incr_renderer.rs:81-99`): the changed indices, followed by one copy of
the new page count pushed for every cached key at or beyond it
(`keys().filter(|&&i| i >= current_count).for_each(|_| changed.push(current_count))`).
All pushed sentinel values are equal, so the result does not depend on
the unspecified `HashMap` key order. -/
def get_changed_pages (pageHash : Nat → Nat) (cache : List (Nat × PageRenderCacheM))
    (pages : List Nat) : List Nat :=
  changedIdx pageHash cache 0 pages ++
    (cache.filter (fun kv => decide (pages.length ≤ kv.1))).map (fun _ => pages.length)

/-- The loop body's test (`incr_renderer.rs:87-90`): page `p` at cache
index `j` counts as changed iff no cache entry exists at `j` or the
cached fingerprint differs from the page's. -/
def changedCell (pageHash : Nat → Nat) (cache : List (Nat × PageRenderCacheM))
    (j p : Nat) : Bool :=
  match alistLookup cache j with
  | some cached => !(cached.frame_hash == pageHash p)
  | none => true

/-- The per-index "changed" test the spec's `get_changed_pages` contract
is phrased in: index `j` is changed iff the cache holds no entry at `j`
whose fingerprint equals the current page's. -/
def pageChangedAt (pageHash : Nat → Nat) (cache : List (Nat × PageRenderCacheM))
    (pages : List Nat) (j : Nat) : Bool :=
  changedCell pageHash cache j (pages.getD j 0)

/-! ## Compile events (`ipc/…` event payloads, success path of
`typst.rs:123-165` / `service.rs:146-172`) -/

/-- Diagnostic severity, from the event payload. -/
inductive SeverityM
  | error
  | warning
deriving DecidableEq

/-- Structure `TypstSourceDiagnostic` as constructed at `typst.rs:193-201` /
`service.rs:214-222`: a character-offset range, a severity, a message
and hints. -/
structure TypstSourceDiagnosticM where
  rangeStart : Nat
  rangeEnd : Nat
  severity : SeverityM
  message : String
  hints : List String
deriving DecidableEq

/-- Structure `TypstDocument` exactly as the success paths construct it
(`typst.rs:157-162`, `service.rs:164-169`): the exhaustive struct
literal shows its complete field list — page count, document hash,
first-page width and height.  Dimensions (`f64` points) are abstracted
as `Int`. -/
structure TypstDocumentM where
  pages : Nat
  hash : String
  width : Int
  height : Int
deriving DecidableEq

/-- Structure `TypstCompileEvent` as constructed at both emit sites: an optional
document summary and an optional diagnostic list. -/
structure TypstCompileEventM where
  document : Option TypstDocumentM
  diagnostics : Option (List TypstSourceDiagnosticM)
deriving DecidableEq

/-- Embedding of the success branch shared by `typst.rs:123-165` and
`service.rs:146-172` (after the admission gate): hash all pages, read
`doc.pages[0]` for the first-page dimensions — which panics on a
zero-page document (`none`: no event of any kind is emitted) — store the
document, and emit the success event.  The document fingerprint and the
page dimensions are parameters (`docHash`, `widthOf`, `heightOf`). -/
def emitSuccessEvent (docHash : List Nat → String) (widthOf heightOf : Nat → Int)
    (ps : List Nat) : Option TypstCompileEventM :=
  match ps with
  | [] => none
  | p0 :: _ =>
    some { document := some { pages := ps.length, hash := docHash ps
                              width := widthOf p0, height := heightOf p0 }
           diagnostics := none }

/-- The pre-rendered vector-graphics bodies carried by a published
success event.  The payload emitted by the code is
`TypstCompileEvent { document: Some(TypstDocument { pages, hash, width, height }), diagnostics: None }`
(`typst.rs:154-165`, `service.rs:163-171`); neither `TypstDocument` nor
`TypstCompileEvent` has any pre-rendered-page field, and no emit site
attaches one, so the list of bodies carried by any event is empty. -/
def successPrerenderedPages (e : TypstCompileEventM) : List String := []

/-! ## Source overlay (`project/world.rs`)

`FileId`s carry no package in every path the claims touch
(`FileId::new(None, vpath)`), so a file id is modelled by its virtual
path (a `String`).  A typst `Source` is modelled by its text.
Virtual-path resolution against the project root
(`vpath.resolve(root)`, `None` ⇒ `AccessDenied`) and disk reads
(`fs::read_to_string` / `fs::read`) are parameters. -/

/-- Embedding of `content.as_bytes().to_vec()`: the UTF-8 bytes of a string. -/
def strBytes (s : String) : List UInt8 := s.toUTF8.toList

deriving instance DecidableEq for Except

/-- Structure `PathSlot` from `world.rs:217-222`: a resolved absolute path plus
independently memoized source-text and byte-buffer results. -/
structure PathSlotM where
  path : String
  source : Option (Except FileErrorM String)
  buffer : Option (Except FileErrorM (List UInt8))
deriving DecidableEq

/-- Structure holding `ProjectWorld`'s slot map (`world.rs:22`). -/
structure ProjectWorldM where
  slots : List (String × PathSlotM)
deriving DecidableEq

/-- Embedding of `ProjectWorld::slot_update` (`world.rs:28-72`): create
the slot on first reference (resolving the virtual path, `AccessDenied`
when resolution fails), then — when an override is supplied — store its
bytes as the buffer result and its text as the source result (the code
replaces an existing `Ok` source's text in place via `Source::replace`
and creates a fresh `Source` otherwise; both leave the source result
`Ok(text)`, which is what the model records). -/
def slot_update (resolve : String → Option String) (w : ProjectWorldM)
    (path : String) (content : Option String) :
    Except FileErrorM (String × ProjectWorldM) :=
  match alistLookup w.slots path with
  | some _ =>
    match content with
    | none => Except.ok (path, w)
    | some text =>
      Except.ok (path, { slots := alistUpdate w.slots path (fun s =>
        { s with buffer := some (Except.ok (strBytes text))
                 source := some (Except.ok text) }) })
  | none =>
    match resolve path with
    | none => Except.error FileErrorM.accessDenied
    | some abs =>
      match content with
      | none =>
        Except.ok (path,
          ProjectWorldM.mk (alistInsert w.slots path
            (PathSlotM.mk abs none none)))
      | some text =>
        Except.ok (path,
          ProjectWorldM.mk (alistUpdate
            (alistInsert w.slots path (PathSlotM.mk abs none none))
            path (fun s =>
              { s with buffer := some (Except.ok (strBytes text))
                       source := some (Except.ok text) })))

/-- Embedding of `PathSlot::source` (`world.rs:225-242`): serve the
memoized result if present, otherwise read the slot's path from disk and
memoize the outcome (success or error). -/
def pathSlotSource (disk : String → Except FileErrorM String) (s : PathSlotM) :
    Except FileErrorM String × PathSlotM :=
  match s.source with
  | some r => (r, s)
  | none =>
    let r := disk s.path
    (r, { s with source := some r })

/-- Embedding of `PathSlot::file` (`world.rs:244-261`). -/
def pathSlotFile (diskBytes : String → Except FileErrorM (List UInt8)) (s : PathSlotM) :
    Except FileErrorM (List UInt8) × PathSlotM :=
  match s.buffer with
  | some r => (r, s)
  | none =>
    let r := diskBytes s.path
    (r, { s with buffer := some r })

/-- Embedding of `World::source` for `ProjectWorld` (`world.rs:144-167`):
read through an existing slot, or create one (resolving the path) and
read through it; the memoization updates the slot map. -/
def worldSource (resolve : String → Option String)
    (disk : String → Except FileErrorM String) (w : ProjectWorldM) (id : String) :
    Except FileErrorM String × ProjectWorldM :=
  match alistLookup w.slots id with
  | some slot =>
    let rs := pathSlotSource disk slot
    (rs.1, { slots := alistUpdate w.slots id (fun _ => rs.2) })
  | none =>
    match resolve id with
    | none => (Except.error FileErrorM.accessDenied, w)
    | some abs =>
      let rs := pathSlotSource disk { path := abs, source := none, buffer := none }
      (rs.1, { slots := alistInsert w.slots id rs.2 })

/-- Embedding of `World::file` for `ProjectWorld` (`world.rs:169-192`). -/
def worldFile (resolve : String → Option String)
    (diskBytes : String → Except FileErrorM (List UInt8)) (w : ProjectWorldM) (id : String) :
    Except FileErrorM (List UInt8) × ProjectWorldM :=
  match alistLookup w.slots id with
  | some slot =>
    let rs := pathSlotFile diskBytes slot
    (rs.1, { slots := alistUpdate w.slots id (fun _ => rs.2) })
  | none =>
    match resolve id with
    | none => (Except.error FileErrorM.accessDenied, w)
    | some abs =>
      let rs := pathSlotFile diskBytes { path := abs, source := none, buffer := none }
      (rs.1, { slots := alistInsert w.slots id rs.2 })

/-! ## Diagnostic range mapping (`typst.rs:181-205`, `service.rs:204-224`)

The edited content is a `List Char`; byte offsets are UTF-8 byte
offsets (`Char.utf8Size` is exactly Rust's per-`char` UTF-8 width). -/

/-- Embedding of `content[..b].chars().count()` for a byte bound `b`: the number of
characters consumed by the first `b` bytes. -/
def charsCountIn : List Char → Nat → Nat
  | _, 0 => 0
  | [], _ + 1 => 0
  | c :: cs, b + 1 => 1 + charsCountIn cs (b + 1 - c.utf8Size)

/-- Embedding of `content[b..]`: drop the characters occupying the first `b` bytes. -/
def bytesDrop : List Char → Nat → List Char
  | cs, 0 => cs
  | [], _ + 1 => []
  | c :: cs, b + 1 => bytesDrop cs (b + 1 - c.utf8Size)

/-- Total UTF-8 byte length of a character list. -/
def utf8Len (cs : List Char) : Nat := (cs.map Char.utf8Size).sum

/-- Embedding of the diagnostic range computation (`typst.rs:189-194`):
`start = content[..b0].chars().count()`,
`size = content[b0..b1].chars().count()`, published range
`start..start + size`. -/
def mapDiagnosticRange (content : List Char) (b0 b1 : Nat) : Nat × Nat :=
  let start := charsCountIn content b0
  let size := charsCountIn (bytesDrop content b0) (b1 - b0)
  (start, start + size)

/-! ## Theorems -/

/-- Claim C2, counterexample: the code at `typst.rs:88` performs a plain
`store`, not a fetch-max — with the session counter at 5, handling a
request with id 3 overwrites the counter with 3 rather than raising it
to `max 5 3`, so the counter is not monotonically non-decreasing. -/
theorem storeRequestId_not_fetch_max : storeRequestId 5 3 ≠ max 5 3 := by
  decide

/-- Claim C2 as amended: on every compile request the session counter is
unconditionally overwritten with the request's id, and a result is
admitted at the final post-compile check only if its id equals the
counter value there — in particular, an admitted id is never strictly
less than that counter value. -/
theorem storeRequestId_overwrite_admit_eq (c r : Nat) (h : admitResult c r = true) :
    storeRequestId c r = r ∧ r = c ∧ ¬r < c := by
  have hc : c = r := by simpa [admitResult] using h
  subst hc
  exact ⟨rfl, rfl, Nat.lt_irrefl _⟩

/-- Witness for `storeRequestId_overwrite_admit_eq` at counter 4,
request id 4. -/
theorem storeRequestId_overwrite_admit_eq_witness :
    storeRequestId 4 4 = 4 ∧ 4 = 4 ∧ ¬(4 : Nat) < 4 :=
  storeRequestId_overwrite_admit_eq 4 4 (by decide)

/-- Claim C3 (a code bug): with the shared token flagged, the guard's
`source` and `file` implementations still delegate to the underlying
overlay and return its content — they never call `check_cancellation`,
which would have produced the cancellation error the struct's own doc
comment promises. -/
theorem cancellableWorld_ignores_flagged_token :
    cancellableWorldSource true (fun _ => Except.ok "content") 0 = Except.ok "content" ∧
    cancellableWorldFile true (fun _ => Except.ok [104]) 0 = Except.ok [104] ∧
    check_cancellation true = Except.error FileErrorM.cancelled :=
  ⟨rfl, rfl, rfl⟩

/-- Claim C9, counterexample: after a lock-holder panic poisons the world
lock, the next `typst_compile` command's acquisition (`typst.rs:91`,
`world.lock().unwrap()`) panics instead of succeeding, so it is not the
case that every subsequent operation on the session still acquires the
lock. -/
theorem typstCompile_lock_panics_on_poison :
    typstCompileWorldLock LockHealth.poisoned 7 = none :=
  rfl

/-- Claim C9 as amended: only the compile worker's world-lock
acquisitions (`service.rs:106-109`, `181-184`) recover by adopting the
poisoned state; the `typst_compile` command's world lock, the slots'
source/byte locks, and the document-cache lock all `unwrap()` and
propagate the panic. -/
theorem poisoned_lock_recovery_scope (g : Nat) :
    compileJobWorldLock LockHealth.poisoned g = g ∧
    typstCompileWorldLock LockHealth.poisoned g = none ∧
    slotLockAcquire LockHealth.poisoned g = none ∧
    documentCacheLockAcquire LockHealth.poisoned g = none :=
  ⟨rfl, rfl, rfl, rfl⟩

/-- Claim C4, counterexample: for a one-page document the success event
the code emits is exactly `{document := some {pages, hash, width,
height}, diagnostics := none}`; the pre-rendered-page list it carries is
empty, whose length 0 differs from the claimed `min(pageCount, 10) = 1`. -/
theorem success_event_has_no_prerendered_pages :
    emitSuccessEvent (fun _ => "fp") (fun _ => 3) (fun _ => 4) [7] =
      some { document := some { pages := 1, hash := "fp", width := 3, height := 4 }
             diagnostics := none } ∧
    (successPrerenderedPages
      { document := some { pages := 1, hash := "fp", width := 3, height := 4 }
        diagnostics := none }).length ≠ min 1 10 :=
  ⟨rfl, by decide⟩

/-- Claim C4 as amended: every published success event carries exactly
the page count, the document fingerprint, and the first page's width and
height, with no diagnostics; it carries no pre-rendered page bodies (the
Page Render Cache is never consulted on the success path — the
incremental renderer is dead code). -/
theorem success_event_fields (docHash : List Nat → String) (widthOf heightOf : Nat → Int)
    (p : Nat) (rest : List Nat) :
    emitSuccessEvent docHash widthOf heightOf (p :: rest) =
      some { document := some { pages := (p :: rest).length, hash := docHash (p :: rest)
                                width := widthOf p, height := heightOf p }
             diagnostics := none } ∧
    ∀ e, successPrerenderedPages e = [] :=
  ⟨rfl, fun _ => rfl⟩

/-- Claim C10: the success path reads `doc.pages[0]` before emitting, so
a successful compile of a zero-page document panics and publishes no
event at all, and every emitted success event reports at least one
page. -/
theorem success_requires_nonempty_pages (docHash : List Nat → String)
    (widthOf heightOf : Nat → Int) :
    emitSuccessEvent docHash widthOf heightOf [] = none ∧
    ∀ ps e d, emitSuccessEvent docHash widthOf heightOf ps = some e →
      e.document = some d → 1 ≤ d.pages := by
  refine ⟨rfl, ?_⟩
  intro ps e d he hd
  cases ps with
  | nil => cases he
  | cons p rest =>
    simp only [emitSuccessEvent] at he
    cases he
    simp only [Option.some.injEq] at hd
    cases hd
    simp

/-- Witness for `success_requires_nonempty_pages` at the one-page
document `[9]`. -/
theorem success_requires_nonempty_pages_witness :
    emitSuccessEvent (fun _ => "h") (fun _ => 1) (fun _ => 2) [] = none ∧
    1 ≤ ({ pages := 1, hash := "h", width := 1, height := 2 } : TypstDocumentM).pages :=
  ⟨(success_requires_nonempty_pages (fun _ => "h") (fun _ => 1) (fun _ => 2)).1,
   (success_requires_nonempty_pages (fun _ => "h") (fun _ => 1) (fun _ => 2)).2 [9]
     { document := some { pages := 1, hash := "h", width := 1, height := 2 }
       diagnostics := none }
     { pages := 1, hash := "h", width := 1, height := 2 } rfl rfl⟩

/-- Auxiliary: `storesOf` distributes over trace concatenation. -/
theorem storesOf_append (s t : List ReqEvent) :
    storesOf (s ++ t) = storesOf s ++ storesOf t := by
  induction s with
  | nil => rfl
  | cons e s ih => cases e <;> simp [storesOf, ih]

/-- Auxiliary: the counter after a trace is the last id stored in it (or
the initial value when nothing was stored). -/
theorem counterAfter_eq_getLastD (c : Nat) (t : List ReqEvent) :
    counterAfter c t = (storesOf t).getLastD c := by
  induction t generalizing c with
  | nil => rfl
  | cons e t ih =>
    cases e with
    | store i =>
      simp only [counterAfter, storesOf, storeRequestId, ih, List.getLastD_cons]
    | check j => simp only [counterAfter, storesOf, ih]

/-- Auxiliary: in a strictly increasing list, every element is at most
the last element. -/
theorem chain_lt_le_getLastD (l : List Nat) (d : Nat)
    (h : List.Chain' (fun a b => a < b) l) : ∀ i ∈ l, i ≤ l.getLastD d := by
  induction l generalizing d with
  | nil => intro i hi; cases hi
  | cons a t ih =>
    intro i hi
    cases t with
    | nil =>
      rcases List.mem_singleton.mp hi with rfl
      simp [List.getLastD_cons]
    | cons b t' =>
      rw [List.chain'_cons] at h
      rw [List.getLastD_cons]
      rcases List.mem_cons.mp hi with heq | hi'
      · rw [heq]
        exact le_trans (le_of_lt h.1) (ih a h.2 b (List.mem_cons_self b t'))
      · exact ih a h.2 i hi'

/-- Claim C1: over any trace whose stores occur in strictly increasing
request-id order (a sequence of requests submitted to the session with
strictly increasing ids), a result that passes its final admission check
belongs to the maximum id stored up to that point: the published id was
stored and every id stored before the check is at most it, regardless of
the order in which the compiles completed.  Contrapositively, a lower-id result that
reaches its check after a higher-id request was stored is never
published. -/
theorem only_newest_result_published (c0 j : Nat) (t1 t2 : List ReqEvent)
    (hinc : List.Chain' (fun a b => a < b)
      (storesOf (t1 ++ ReqEvent.check j :: t2)))
    (hstored : j ∈ storesOf t1)
    (hpub : admitResult (counterAfter c0 t1) j = true) :
    j ∈ storesOf t1 ∧ ∀ i ∈ storesOf t1, i ≤ j := by
  have hchain : List.Chain' (fun a b => a < b) (storesOf t1) := by
    rw [storesOf_append] at hinc
    exact (List.chain'_append.mp hinc).1
  have hcounter : counterAfter c0 t1 = j := by
    simpa [admitResult] using hpub
  refine ⟨hstored, ?_⟩
  intro i hi
  have hle := chain_lt_le_getLastD (storesOf t1) c0 hchain i hi
  rwa [← counterAfter_eq_getLastD, hcounter] at hle

/-- Witness for `only_newest_result_published`: submit ids 1 then 2;
id 2's check passes while id 1's later check would fail. -/
theorem only_newest_result_published_witness :
    List.Chain' (fun a b => a < b)
      (storesOf ([ReqEvent.store 1, ReqEvent.store 2] ++
        ReqEvent.check 2 :: [ReqEvent.check 1])) ∧
    2 ∈ storesOf [ReqEvent.store 1, ReqEvent.store 2] ∧
    admitResult (counterAfter 0 [ReqEvent.store 1, ReqEvent.store 2]) 2 = true ∧
    (2 ∈ storesOf [ReqEvent.store 1, ReqEvent.store 2] ∧
      ∀ i ∈ storesOf [ReqEvent.store 1, ReqEvent.store 2], i ≤ 2) :=
  ⟨by simp [storesOf, List.chain'_cons], by decide, by decide,
   only_newest_result_published 0 2 [ReqEvent.store 1, ReqEvent.store 2]
     [ReqEvent.check 1] (by simp [storesOf, List.chain'_cons]) (by decide) (by decide)⟩

/-- Auxiliary: looking up a freshly inserted key yields the inserted
value. -/
theorem alistLookup_insert_self {κ α : Type} [DecidableEq κ]
    (l : List (κ × α)) (k : κ) (v : α) :
    alistLookup (alistInsert l k v) k = some v := by
  induction l with
  | nil => simp [alistInsert, alistLookup]
  | cons kv t ih =>
    obtain ⟨k', v'⟩ := kv
    by_cases h : k' = k
    · simp [alistInsert, alistLookup, h]
    · simp [alistInsert, alistLookup, h, ih]

/-- Auxiliary: equation for `render_page` on a fingerprint cache hit. -/
theorem render_page_hit (ph : Nat → Nat) (sv : Nat → String)
    (c : List (Nat × PageRenderCacheM)) (i p : Nat) (e : PageRenderCacheM)
    (he : alistLookup c i = some e) (hh : e.frame_hash = ph p) :
    render_page ph sv c i p = ((e.svg, false), c) := by
  simp [render_page, he, hh]

/-- Auxiliary: equation for `render_page` when the cached fingerprint
differs. -/
theorem render_page_fresh_of_ne (ph : Nat → Nat) (sv : Nat → String)
    (c : List (Nat × PageRenderCacheM)) (i p : Nat) (e : PageRenderCacheM)
    (he : alistLookup c i = some e) (hh : e.frame_hash ≠ ph p) :
    render_page ph sv c i p =
      ((add_data_tid_to_svg (sv p) (generate_data_tid (ph p) i), true),
        alistInsert c i
          { frame_hash := ph p
            svg := add_data_tid_to_svg (sv p) (generate_data_tid (ph p) i)
            data_tid := generate_data_tid (ph p) i }) := by
  simp [render_page, he, hh]

/-- Auxiliary: equation for `render_page` when the index is uncached. -/
theorem render_page_uncached (ph : Nat → Nat) (sv : Nat → String)
    (c : List (Nat × PageRenderCacheM)) (i p : Nat)
    (he : alistLookup c i = none) :
    render_page ph sv c i p =
      ((add_data_tid_to_svg (sv p) (generate_data_tid (ph p) i), true),
        alistInsert c i
          { frame_hash := ph p
            svg := add_data_tid_to_svg (sv p) (generate_data_tid (ph p) i)
            data_tid := generate_data_tid (ph p) i }) := by
  simp [render_page, he]

/-- Auxiliary: after `render_page` at index `i` on page `p`, the cache
holds an entry at `i` whose fingerprint is `p`'s and whose markup is the
returned markup. -/
theorem render_page_cache_entry (ph : Nat → Nat) (sv : Nat → String)
    (c : List (Nat × PageRenderCacheM)) (i p : Nat) :
    ∃ e, alistLookup (render_page ph sv c i p).2 i = some e ∧
      e.frame_hash = ph p ∧ e.svg = (render_page ph sv c i p).1.1 := by
  cases hl : alistLookup c i with
  | none =>
    rw [render_page_uncached ph sv c i p hl]
    exact ⟨_, alistLookup_insert_self c i _, rfl, rfl⟩
  | some cached =>
    by_cases hcf : cached.frame_hash = ph p
    · rw [render_page_hit ph sv c i p cached hl hcf]
      exact ⟨cached, hl, hcf, rfl⟩
    · rw [render_page_fresh_of_ne ph sv c i p cached hl hcf]
      exact ⟨_, alistLookup_insert_self c i _, rfl, rfl⟩

/-- Claim C5, counterexample: calling `render_page` twice on the same
unmodified page yields identical markup, but the returned flag on the
second call is `false`, not the claimed `unchanged = true` (the boolean
reports that a fresh render occurred, and is `false` on a fingerprint
cache hit). -/
theorem render_page_second_call_flag_false :
    (render_page (fun n => n) (fun _ => "<svg></svg>")
      (render_page (fun n => n) (fun _ => "<svg></svg>") [] 0 7).2 0 7).1.2 = false ∧
    (render_page (fun n => n) (fun _ => "<svg></svg>")
      (render_page (fun n => n) (fun _ => "<svg></svg>") [] 0 7).2 0 7).1.1 =
      (render_page (fun n => n) (fun _ => "<svg></svg>") [] 0 7).1.1 := by
  constructor <;> rfl

/-- Claim C5 as amended: rendering the same page again yields the
identical cached markup, the flag `false` (a cache hit), and an
unchanged cache; rendering a visually changed page (different
fingerprint) at the same index yields the flag `true` and the fresh
rendering with the new stable id `generate_data_tid (new fingerprint, index)`
embedded, which is stored as the index's new cache entry. -/
theorem render_page_hit_and_change (ph : Nat → Nat) (sv : Nat → String)
    (c : List (Nat × PageRenderCacheM)) (i p p' : Nat)
    (hne : ph p' ≠ ph p) :
    render_page ph sv (render_page ph sv c i p).2 i p =
      (((render_page ph sv c i p).1.1, false), (render_page ph sv c i p).2) ∧
    render_page ph sv (render_page ph sv c i p).2 i p' =
      ((add_data_tid_to_svg (sv p') (generate_data_tid (ph p') i), true),
        alistInsert (render_page ph sv c i p).2 i
          { frame_hash := ph p'
            svg := add_data_tid_to_svg (sv p') (generate_data_tid (ph p') i)
            data_tid := generate_data_tid (ph p') i }) := by
  obtain ⟨e, he, hh, hs⟩ := render_page_cache_entry ph sv c i p
  constructor
  · rw [render_page_hit ph sv _ i p e he hh, hs]
  · have hne' : e.frame_hash ≠ ph p' := by rw [hh]; exact fun hx => hne hx.symm
    rw [render_page_fresh_of_ne ph sv _ i p' e he hne']

/-- Witness for `render_page_hit_and_change`: pages 7 then 8 at index 0
under the identity fingerprint. -/
theorem render_page_hit_and_change_witness :
    (fun n => n : Nat → Nat) 8 ≠ (fun n => n : Nat → Nat) 7 ∧
    render_page (fun n => n) (fun _ => "<svg></svg>")
        (render_page (fun n => n) (fun _ => "<svg></svg>") [] 0 7).2 0 7 =
      (((render_page (fun n => n) (fun _ => "<svg></svg>") [] 0 7).1.1, false),
        (render_page (fun n => n) (fun _ => "<svg></svg>") [] 0 7).2) ∧
    render_page (fun n => n) (fun _ => "<svg></svg>")
        (render_page (fun n => n) (fun _ => "<svg></svg>") [] 0 7).2 0 8 =
      ((add_data_tid_to_svg ("<svg></svg>") (generate_data_tid 8 0), true),
        alistInsert (render_page (fun n => n) (fun _ => "<svg></svg>") [] 0 7).2 0
          { frame_hash := 8
            svg := add_data_tid_to_svg ("<svg></svg>") (generate_data_tid 8 0)
            data_tid := generate_data_tid 8 0 }) :=
  ⟨by decide,
   (render_page_hit_and_change (fun n => n) (fun _ => "<svg></svg>") [] 0 7 8
     (by decide)).1,
   (render_page_hit_and_change (fun n => n) (fun _ => "<svg></svg>") [] 0 7 8
     (by decide)).2⟩

/-- Auxiliary: filtering by keeping `k` under a boolean test is a
`filter`. -/
theorem filterMap_keep_eq_filter (p : Nat → Bool) (l : List Nat) :
    l.filterMap (fun k => if p k then some k else none) = l.filter p := by
  induction l with
  | nil => rfl
  | cons a t ih =>
    by_cases h : p a <;> simp [List.filterMap_cons, List.filter_cons, h, ih]

/-- Auxiliary: the enumeration loop of `get_changed_pages`, started at
absolute index `i`, keeps exactly the absolute indices whose cell test
says "changed". -/
theorem changedIdx_eq_filterMap (ph : Nat → Nat) (c : List (Nat × PageRenderCacheM)) :
    ∀ (ps : List Nat) (i : Nat),
      changedIdx ph c i ps =
        (List.range ps.length).filterMap
          (fun k => if changedCell ph c (i + k) (ps.getD k 0) then some (i + k) else none) := by
  intro ps
  induction ps with
  | nil => intro i; rfl
  | cons p t ih =>
    intro i
    rw [List.length_cons, List.range_succ_eq_map, List.filterMap_cons, List.filterMap_map]
    have htail :
        List.filterMap
          ((fun k => if changedCell ph c (i + k) ((p :: t).getD k 0) then some (i + k) else none)
            ∘ Nat.succ) (List.range t.length) =
        List.filterMap
          (fun k => if changedCell ph c (i + 1 + k) (t.getD k 0) then some (i + 1 + k) else none)
          (List.range t.length) := by
      apply List.filterMap_congr
      intro k _
      have harith : i + (k + 1) = i + 1 + k := by omega
      simp [Function.comp, List.getD_cons_succ, harith]
    have hhead :
        changedIdx ph c i (p :: t) =
          (match alistLookup c i with
            | some cached => if cached.frame_hash = ph p then [] else [i]
            | none => [i]) ++ changedIdx ph c (i + 1) t := rfl
    rw [hhead, ih (i + 1), ← htail]
    cases hl : alistLookup c i with
    | none => simp [changedCell, hl]
    | some cached =>
      by_cases hcf : cached.frame_hash = ph p
      · simp [changedCell, hl, hcf]
      · simp [changedCell, hl, hcf]

/-- Claim C6, counterexample: with cached entries at indices 0, 1 and 2
and a new one-page document whose page 0 is unchanged, the code pushes
the sentinel value 1 once per stale key — `get_changed_pages` returns
`[1, 1]`, two sentinel markers rather than exactly one. -/
theorem get_changed_pages_two_sentinels :
    get_changed_pages (fun n => n)
      [(0, { frame_hash := 5, svg := "a", data_tid := "t0" }),
       (1, { frame_hash := 9, svg := "b", data_tid := "t1" }),
       (2, { frame_hash := 11, svg := "c", data_tid := "t2" })]
      [5] = [1, 1] ∧
    List.count 1
      (get_changed_pages (fun n => n)
        [(0, { frame_hash := 5, svg := "a", data_tid := "t0" }),
         (1, { frame_hash := 9, svg := "b", data_tid := "t1" }),
         (2, { frame_hash := 11, svg := "c", data_tid := "t2" })]
        [5]) = 2 := by
  constructor <;> rfl

/-- Claim C6 as amended: `get_changed_pages` returns exactly the indices
of pages whose fingerprint differs from the cached one or is not cached
(in increasing order), followed by one sentinel marker equal to the new
page count for every cached index at or beyond the current page count
(so exactly one sentinel only when exactly one such stale entry
exists). -/
theorem get_changed_pages_characterization (ph : Nat → Nat)
    (c : List (Nat × PageRenderCacheM)) (ps : List Nat) :
    get_changed_pages ph c ps =
      (List.range ps.length).filter (pageChangedAt ph c ps) ++
        List.replicate ((c.filter (fun kv => decide (ps.length ≤ kv.1))).length)
          ps.length := by
  unfold get_changed_pages
  rw [changedIdx_eq_filterMap]
  congr 1
  · have : (fun k => if changedCell ph c (0 + k) (ps.getD k 0) then some (0 + k) else none) =
        (fun k => if pageChangedAt ph c ps k then some k else none) := by
      funext k
      simp [pageChangedAt, Nat.zero_add]
    rw [this, filterMap_keep_eq_filter]
  · simp [List.map_const']

/-- Auxiliary: updating a key rewrites exactly that key's binding. -/
theorem alistLookup_update {κ α : Type} [DecidableEq κ]
    (l : List (κ × α)) (k : κ) (f : α → α) :
    alistLookup (alistUpdate l k f) k = (alistLookup l k).map f := by
  induction l with
  | nil => rfl
  | cons kv t ih =>
    obtain ⟨k', v'⟩ := kv
    by_cases h : k' = k
    · simp [alistUpdate, alistLookup, h]
    · simp [alistUpdate, alistLookup, h, ih]

/-- Auxiliary: an update that fixes the present value is the identity. -/
theorem alistUpdate_eq_self {κ α : Type} [DecidableEq κ]
    (l : List (κ × α)) (k : κ) (f : α → α) (v : α)
    (hv : alistLookup l k = some v) (hf : f v = v) :
    alistUpdate l k f = l := by
  induction l with
  | nil => cases hv
  | cons kv t ih =>
    obtain ⟨k', v'⟩ := kv
    by_cases h : k' = k
    · simp only [alistLookup, if_pos h, Option.some.injEq] at hv
      subst hv
      simp [alistUpdate, h, hf]
    · simp only [alistLookup, if_neg h] at hv
      simp [alistUpdate, h, ih hv]

/-- Auxiliary: a successful `slot_update` with an override returns the
file id of the edited path and leaves a slot whose memoized source is
exactly the override text and whose memoized buffer is exactly its
bytes. -/
theorem slot_update_lookup (resolve : String → Option String)
    (w : ProjectWorldM) (path text id : String) (w' : ProjectWorldM)
    (hupd : slot_update resolve w path (some text) = Except.ok (id, w')) :
    id = path ∧ ∃ p, alistLookup w'.slots path =
      some { path := p, source := some (Except.ok text)
             buffer := some (Except.ok (strBytes text)) } := by
  cases hl : alistLookup w.slots path with
  | some s0 =>
    simp only [slot_update, hl, Except.ok.injEq, Prod.mk.injEq] at hupd
    obtain ⟨hid, hw⟩ := hupd
    subst hw
    refine ⟨hid.symm, s0.path, ?_⟩
    rw [alistLookup_update, hl]
    rfl
  | none =>
    cases hr : resolve path with
    | none => simp [slot_update, hl, hr] at hupd
    | some abs =>
      simp only [slot_update, hl, hr, Except.ok.injEq, Prod.mk.injEq] at hupd
      obtain ⟨hid, hw⟩ := hupd
      subst hw
      refine ⟨hid.symm, abs, ?_⟩
      rw [alistLookup_update, alistLookup_insert_self]
      rfl

/-- Claim C7: after `update(path, X)` (a `slot_update` with override
`X`), `read_source` of the same file returns exactly `X` without
touching the disk, `read_bytes` returns exactly `X`'s bytes, and a
second `update(path, X)` with identical content is a no-op: it returns
the same id and leaves the world state — hence every observable content
— unchanged. -/
theorem overlay_update_read_roundtrip
    (resolve : String → Option String) (disk : String → Except FileErrorM String)
    (diskBytes : String → Except FileErrorM (List UInt8))
    (w w' : ProjectWorldM) (path text id : String)
    (hupd : slot_update resolve w path (some text) = Except.ok (id, w')) :
    id = path ∧
    worldSource resolve disk w' path = (Except.ok text, w') ∧
    slot_update resolve w' path (some text) = Except.ok (path, w') ∧
    worldFile resolve diskBytes w' path = (Except.ok (strBytes text), w') := by
  obtain ⟨hid, p, hl⟩ := slot_update_lookup resolve w path text id w' hupd
  obtain ⟨slots'⟩ := w'
  simp only at hl
  refine ⟨hid, ?_, ?_, ?_⟩
  · simp only [worldSource, hl, pathSlotSource]
    rw [alistUpdate_eq_self slots' path _ _ hl rfl]
  · simp only [slot_update, hl, Except.ok.injEq, Prod.mk.injEq, true_and]
    exact congrArg ProjectWorldM.mk (alistUpdate_eq_self slots' path _ _ hl rfl)
  · simp only [worldFile, hl, pathSlotFile]
    rw [alistUpdate_eq_self slots' path _ _ hl rfl]

/-- Witness for `overlay_update_read_roundtrip`: updating `main.typ`
with `"hi"` in an empty world. -/
theorem overlay_update_read_roundtrip_witness :
    "main.typ" = "main.typ" ∧
    worldSource (fun q => some ("/r/" ++ q)) (fun _ => Except.error (FileErrorM.ioError "x"))
        (ProjectWorldM.mk [("main.typ",
          { path := "/r/main.typ", source := some (Except.ok "hi")
            buffer := some (Except.ok (strBytes "hi")) })]) "main.typ" =
      (Except.ok "hi",
        ProjectWorldM.mk [("main.typ",
          { path := "/r/main.typ", source := some (Except.ok "hi")
            buffer := some (Except.ok (strBytes "hi")) })]) ∧
    slot_update (fun q => some ("/r/" ++ q))
        (ProjectWorldM.mk [("main.typ",
          { path := "/r/main.typ", source := some (Except.ok "hi")
            buffer := some (Except.ok (strBytes "hi")) })]) "main.typ" (some "hi") =
      Except.ok ("main.typ",
        ProjectWorldM.mk [("main.typ",
          { path := "/r/main.typ", source := some (Except.ok "hi")
            buffer := some (Except.ok (strBytes "hi")) })]) ∧
    worldFile (fun q => some ("/r/" ++ q)) (fun _ => Except.error (FileErrorM.ioError "x"))
        (ProjectWorldM.mk [("main.typ",
          { path := "/r/main.typ", source := some (Except.ok "hi")
            buffer := some (Except.ok (strBytes "hi")) })]) "main.typ" =
      (Except.ok (strBytes "hi"),
        ProjectWorldM.mk [("main.typ",
          { path := "/r/main.typ", source := some (Except.ok "hi")
            buffer := some (Except.ok (strBytes "hi")) })]) :=
  overlay_update_read_roundtrip (fun q => some ("/r/" ++ q))
    (fun _ => Except.error (FileErrorM.ioError "x"))
    (fun _ => Except.error (FileErrorM.ioError "x"))
    (ProjectWorldM.mk []) _ "main.typ" "hi" "main.typ" (by rfl)

/-- Auxiliary: a character's UTF-8 width is positive. -/
theorem utf8Size_pos (c : Char) : 0 < c.utf8Size := by
  have := Char.utf8Size_pos c
  exact this

/-- Auxiliary: `utf8Len` of a cons. -/
theorem utf8Len_cons (c : Char) (t : List Char) :
    utf8Len (c :: t) = c.utf8Size + utf8Len t := by
  simp [utf8Len]

/-- Auxiliary: `utf8Len` of an append. -/
theorem utf8Len_append (a b : List Char) :
    utf8Len (a ++ b) = utf8Len a + utf8Len b := by
  simp [utf8Len]

/-- Auxiliary: counting the characters inside the byte prefix occupied
by the first `k` characters yields `k` (capped by the length). -/
theorem charsCountIn_take (cs : List Char) (k : Nat) :
    charsCountIn cs (utf8Len (cs.take k)) = min k cs.length := by
  induction cs generalizing k with
  | nil => simp [charsCountIn, utf8Len]
  | cons c t ih =>
    cases k with
    | zero => simp [charsCountIn, utf8Len]
    | succ k' =>
      have hpos := utf8Size_pos c
      have hb : utf8Len ((c :: t).take (k' + 1)) = (c.utf8Size + utf8Len (t.take k') - 1) + 1 := by
        rw [List.take_succ_cons, utf8Len_cons]
        omega
      rw [hb]
      show 1 + charsCountIn t ((c.utf8Size + utf8Len (t.take k') - 1) + 1 - c.utf8Size) = _
      have harg : (c.utf8Size + utf8Len (t.take k') - 1) + 1 - c.utf8Size = utf8Len (t.take k') := by
        omega
      rw [harg, ih k']
      simp [Nat.succ_min_succ]
      omega

/-- Auxiliary: dropping the byte prefix occupied by the first `k`
characters drops exactly those `k` characters. -/
theorem bytesDrop_take (cs : List Char) (k : Nat) :
    bytesDrop cs (utf8Len (cs.take k)) = cs.drop k := by
  induction cs generalizing k with
  | nil => simp [bytesDrop, utf8Len]
  | cons c t ih =>
    cases k with
    | zero => simp [bytesDrop, utf8Len]
    | succ k' =>
      have hpos := utf8Size_pos c
      have hb : utf8Len ((c :: t).take (k' + 1)) = (c.utf8Size + utf8Len (t.take k') - 1) + 1 := by
        rw [List.take_succ_cons, utf8Len_cons]
        omega
      rw [hb]
      show bytesDrop t ((c.utf8Size + utf8Len (t.take k') - 1) + 1 - c.utf8Size) = t.drop k'
      have harg : (c.utf8Size + utf8Len (t.take k') - 1) + 1 - c.utf8Size = utf8Len (t.take k') := by
        omega
      rw [harg, ih k']

/-- Claim C8: for a reported byte range `[b0, b1)` lying on character
boundaries — `b0` is the byte length of the first `k` characters and
`b1` of the first `m` — the published diagnostic range is exactly
`(k, m)` in character offsets: its start is the number of characters
preceding byte `b0` and its length `m - k` is the number of characters
in bytes `[b0, b1)`, regardless of multi-byte characters anywhere in the
content. -/
theorem diagnostic_range_char_offsets (content : List Char) (k m : Nat)
    (hkm : k ≤ m) (hm : m ≤ content.length) :
    mapDiagnosticRange content (utf8Len (content.take k)) (utf8Len (content.take m)) =
      (k, m) := by
  simp only [mapDiagnosticRange]
  have h1 : charsCountIn content (utf8Len (content.take k)) = k := by
    rw [charsCountIn_take]
    omega
  have hsplit : content.take k ++ (content.drop k).take (m - k) = content.take m := by
    rw [← List.take_add]
    congr 1
    omega
  have hsub : utf8Len (content.take m) - utf8Len (content.take k) =
      utf8Len ((content.drop k).take (m - k)) := by
    rw [← hsplit, utf8Len_append]
    omega
  have h2 : charsCountIn (bytesDrop content (utf8Len (content.take k)))
      (utf8Len (content.take m) - utf8Len (content.take k)) = m - k := by
    rw [bytesDrop_take, hsub, charsCountIn_take, List.length_drop]
    omega
  rw [h1, h2]
  simp only [Prod.mk.injEq, true_and]
  omega

/-- Witness for `diagnostic_range_char_offsets`: content `"éab"` (the
first character is two bytes wide), byte range `[2, 3)` — the bytes of
character 1 — maps to character range `(1, 2)`. -/
theorem diagnostic_range_char_offsets_witness :
    (1 : Nat) ≤ 2 ∧ 2 ≤ "éab".data.length ∧
    mapDiagnosticRange "éab".data (utf8Len ("éab".data.take 1))
      (utf8Len ("éab".data.take 2)) = (1, 2) :=
  ⟨by decide, by decide,
   diagnostic_range_char_offsets "éab".data 1 2 (by decide) (by decide)⟩

end Typstudio
